import Mathlib

/-!
# Verification of the NovaChain backend price/staking routes

Shallow embedding of `routes/prices.js` (per-symbol price resolution with a
fresh/stale two-window cache and a 503 degradation path) and `routes/earn.js`
(stake / redeem ledger transactions), together with proofs of the spec's
claims about them.

Conventions of the embedding:
* JavaScript numbers that have passed a finiteness check are modelled as `ℚ`;
  a value that may be `NaN`/`Infinity`/`null` is an `Option ℚ` with `none`
  standing for "not a finite number".
* Timestamps (`Date.now()`) are `ℕ` milliseconds; `now - t` uses truncated
  subtraction, which agrees with the JS comparisons used (`x < c`, `x ≤ c`
  both hold for negative `x` and for `0`).
* `axios.get` outcomes are inputs to the handler (an `Env` record), one per
  endpoint the route can call; `Except String` models throw vs. success.
* The third component of the handler's result records whether any provider
  network call was performed during the request.
-/

namespace NovaChain

/-! ## JavaScript `toLowerCase` (basic-latin range), as used on line 59 of
`routes/prices.js`: `req.params.symbol.toLowerCase()` -/

/-- Model of `req.params.symbol.toLowerCase()` — the only normalization the
route applies to an incoming symbol (`routes/prices.js` line 59). -/
def normalizeSymbol (raw : String) : String :=
  ⟨raw.data.map Char.toLower⟩

/-! ## `routes/prices.js` data model -/

/-- Association-list lookup, modelling JS object property access. -/
def lookupAssoc {κ α : Type} [DecidableEq κ] : List (κ × α) → κ → Option α
  | [], _ => none
  | (k, v) :: rest, s => if k = s then some v else lookupAssoc rest s

/-- Crypto frontend symbol → CoinGecko id (`CG_ID` table). -/
def CG_ID : List (String × String) :=
  [("bitcoin", "bitcoin"), ("ethereum", "ethereum"), ("tether", "tether"),
   ("solana", "solana"), ("ripple", "ripple"), ("toncoin", "toncoin")]

/-- Forex/commodity frontend symbol → Twelve Data symbol (`TWELVE_SYMBOL`). -/
def TWELVE_SYMBOL : List (String × String) :=
  [("xau", "XAU/USD"), ("xag", "XAG/USD"), ("wti", "CL=F"),
   ("natgas", "NG=F"), ("xcu", "HG=F"),
   ("eurusd", "EUR/USD"), ("gbpusd", "GBP/USD"), ("usdjpy", "USD/JPY"),
   ("audusd", "AUD/USD")]

/-- Helper `isForexOrCommodity`: membership in the `TWELVE_SYMBOL` table
(the code lowercases its argument before the lookup). -/
def isForexOrCommodity (apiSymbol : String) : Bool :=
  (lookupAssoc TWELVE_SYMBOL (normalizeSymbol apiSymbol)).isSome

/-- Helper `isCrypto`: membership in the `CG_ID` table. -/
def isCrypto (apiSymbol : String) : Bool :=
  (lookupAssoc CG_ID (normalizeSymbol apiSymbol)).isSome

def LIST_REFRESH_MS : ℕ := 10000

def SYMBOL_STALE_OK_MS : ℕ := 5 * 60000

/-- One entry of `symbolCache`: a millisecond timestamp `t` plus the price,
high_24h, low_24h and volume_24h fields. -/
structure CacheRecord where
  t : ℕ
  price : Option ℚ
  high_24h : Option ℚ
  low_24h : Option ℚ
  volume_24h : Option ℚ
  deriving DecidableEq, Repr

/-- The `symbolCache` object, keyed by lowercased api symbol. -/
abbrev SymbolCache : Type := List (String × CacheRecord)

/-- The `priceData` object assembled by either provider branch. -/
structure PriceData where
  price : Option ℚ
  high_24h : Option ℚ
  low_24h : Option ℚ
  volume_24h : Option ℚ
  deriving DecidableEq, Repr

/-- Body of a Twelve Data `/price` response after `Number(priceResponse?.price)`:
`none` when the field is missing or not a finite number. -/
structure TwelvePriceResp where
  price : Option ℚ
  deriving DecidableEq, Repr

/-- One element of a Twelve Data `/time_series` `values` array, each field
already passed through `Number(...)` (`none` = not a finite number). -/
structure TwelveTsValue where
  high : Option ℚ
  low : Option ℚ
  volume : Option ℚ
  deriving DecidableEq, Repr

/-- One element of a CoinGecko `/coins/markets` response array. -/
structure CgMarket where
  current_price : Option ℚ
  high_24h : Option ℚ
  low_24h : Option ℚ
  total_volume : Option ℚ
  deriving DecidableEq, Repr

/-- Per-request environment: configuration plus the outcome each provider
endpoint would give if called during this request. -/
structure Env where
  twelveApiKey : Option String
  twelvePrice : Except String TwelvePriceResp
  twelveTs : Except String (List TwelveTsValue)
  cgMarkets : Except String (List CgMarket)
  now : ℕ

/-- The JSON response of `GET /prices/:symbol`; absent JSON fields are `none`
and absent boolean flags are `false`. -/
structure HttpResponse where
  status : ℕ
  symbol : String
  price : Option ℚ
  high_24h : Option ℚ
  low_24h : Option ℚ
  volume_24h : Option ℚ
  t : Option ℕ
  cached : Bool
  stale : Bool
  error : Option String
  detail : Option String
  deriving DecidableEq, Repr

/-- Fresh-cache response (line 67): the symbol, the spread cache record, and
the flag cached set to true. -/
def freshResponse (s : String) (r : CacheRecord) : HttpResponse :=
  ⟨200, s, r.price, r.high_24h, r.low_24h, r.volume_24h, some r.t, true, false, none, none⟩

/-- Stale-cache response (line 182): the symbol, the spread cache record, and
the flag stale set to true. -/
def staleResponse (s : String) (r : CacheRecord) : HttpResponse :=
  ⟨200, s, r.price, r.high_24h, r.low_24h, r.volume_24h, some r.t, false, true, none, none⟩

/-- Live success response (line 168): the symbol and the spread priceData. -/
def liveResponse (s : String) (pd : PriceData) : HttpResponse :=
  ⟨200, s, pd.price, pd.high_24h, pd.low_24h, pd.volume_24h, none, false, false, none, none⟩

/-- Final 503 response (line 191): the error code LIVE_DATA_UNAVAILABLE, the
symbol and the error detail. -/
def unavailableResponse (s msg : String) : HttpResponse :=
  ⟨503, s, none, none, none, none, none, false, false, some "LIVE_DATA_UNAVAILABLE", some msg⟩

/-- The `try` block's provider dispatch (lines 75–157): forex/commodity via
Twelve Data, else crypto via CoinGecko, else `Unsupported symbol` error.
Second component: whether a provider network call was performed. -/
def attemptResolve (env : Env) (s : String) : Except String PriceData × Bool :=
  if isForexOrCommodity s then
    match env.twelveApiKey with
    | none => (.error "Twelve Data API Key not configured", false)
    | some _ =>
      match lookupAssoc TWELVE_SYMBOL s with
      | none => (.error "No Twelve Data symbol mapping", false)
      | some _ =>
        match env.twelvePrice with
        | .error e => (.error e, true)
        | .ok pr =>
          match pr.price with
          | none => (.error "Invalid price received from Twelve Data price endpoint", true)
          | some q =>
            if q ≤ 0 then
              (.error "Invalid price received from Twelve Data price endpoint", true)
            else
              -- best-effort time-series call; its failure or an empty
              -- `values` array leaves high/low/volume null
              match env.twelveTs with
              | .error _ => (.ok ⟨some q, none, none, none⟩, true)
              | .ok [] => (.ok ⟨some q, none, none, none⟩, true)
              | .ok (v :: _) => (.ok ⟨some q, v.high, v.low, v.volume⟩, true)
  else if isCrypto s then
    match env.cgMarkets with
    | .error e => (.error e, true)
    | .ok [] => (.error "No market data found from CoinGecko", true)
    | .ok (m :: _) => (.ok ⟨m.current_price, m.high_24h, m.low_24h, m.total_volume⟩, true)
  else
    (.error "Unsupported symbol", false)

/-- The `catch` block (lines 170–192): serve stale cache when the entry is at
most `SYMBOL_STALE_OK_MS` old, otherwise the 503 `LIVE_DATA_UNAVAILABLE`. -/
def staleFallback (cache : SymbolCache) (s : String) (now : ℕ) (msg : String) :
    HttpResponse :=
  match lookupAssoc cache s with
  | some r =>
    if now - r.t ≤ SYMBOL_STALE_OK_MS then staleResponse s r
    else unavailableResponse s msg
  | none => unavailableResponse s msg

/-- Lines 159–168 plus the catch block: validate the resolved price
(`isFinite` and `> 0`), write the cache and answer, or fall back. -/
def validateAndCache (cache : SymbolCache) (s : String) (now : ℕ) :
    Except String PriceData → HttpResponse × SymbolCache
  | .ok pd =>
    match pd.price with
    | some q =>
      if 0 < q then
        (liveResponse s pd,
         (s, ⟨now, pd.price, pd.high_24h, pd.low_24h, pd.volume_24h⟩) :: cache)
      else (staleFallback cache s now "Invalid or zero price data", cache)
    | none => (staleFallback cache s now "Invalid or zero price data", cache)
  | .error e => (staleFallback cache s now e, cache)

/-- The whole `try`/`catch` body once the cache was not fresh. -/
def resolveAndRespond (cache : SymbolCache) (env : Env) (s : String) (now : ℕ) :
    HttpResponse × SymbolCache × Bool :=
  ((validateAndCache cache s now (attemptResolve env s).1).1,
   (validateAndCache cache s now (attemptResolve env s).1).2,
   (attemptResolve env s).2)

/-- The whole `GET /prices/:symbol` handler. Result: (response, new cache
state, whether any provider network call was made). -/
def handleGetSymbol (cache : SymbolCache) (env : Env) (rawSymbol : String) :
    HttpResponse × SymbolCache × Bool :=
  match lookupAssoc cache (normalizeSymbol rawSymbol) with
  | some r =>
    if env.now - r.t < LIST_REFRESH_MS then
      (freshResponse (normalizeSymbol rawSymbol) r, cache, false)
    else resolveAndRespond cache env (normalizeSymbol rawSymbol) env.now
  | none => resolveAndRespond cache env (normalizeSymbol rawSymbol) env.now

/-- A resolution outcome counts as failed when it throws or when the
resolved price fails the `isFinite`/`> 0` validation of line 160. -/
def failsRes : Except String PriceData → Bool
  | .error _ => true
  | .ok pd =>
    match pd.price with
    | none => true
    | some q => decide (q ≤ 0)

/-- The live resolution of symbol `s` under `env` fails: either the provider
dispatch throws, or the resolved price fails the `isFinite`/`> 0` validation. -/
def resolutionFails (env : Env) (s : String) : Bool :=
  failsRes (attemptResolve env s).1

/-! ## `routes/earn.js` data model

The database rows touched by the stake/redeem endpoints: the `stakes` table
and the `user_balances` table (keyed by `(user_id, coin)`), with the numeric
columns read back through `parseFloat`/`parseInt` modelled as `ℚ`/`ℕ`. A
transaction is modelled as a pure function old state → (result, new state);
`ROLLBACK` paths return the old state unchanged. -/

/-- One row of the `stakes` table. -/
structure Stake where
  id : ℕ
  user_id : ℕ
  coin : String
  amount : ℚ
  daily_rate : ℚ
  duration_days : ℕ
  end_date : ℤ
  status : String
  deriving DecidableEq, Repr

/-- Database state visible to the earn endpoints. -/
structure EarnState where
  stakes : List Stake
  balances : List ((ℕ × String) × ℚ)
  deriving DecidableEq, Repr

/-- Balance read `parseFloat(rows[0]?.balance || 0)`: a missing balance row
reads as 0. -/
def getBalance (st : EarnState) (uid : ℕ) (coin : String) : ℚ :=
  match lookupAssoc st.balances (uid, coin) with
  | some b => b
  | none => 0

/-- Outcome of a stake/redeem endpoint call. -/
inductive EarnResult where
  | ok (message : String)
  | err (status : ℕ) (error : String)
  deriving DecidableEq, Repr

/-- First row of `SELECT * FROM stakes WHERE id = $1 AND user_id = $2`. -/
def findStakeIn (sid uid : ℕ) : List Stake → Option Stake
  | [] => none
  | k :: rest =>
    if k.id = sid ∧ k.user_id = uid then some k else findStakeIn sid uid rest

/-- Query `SELECT * FROM stakes WHERE id = $1 AND user_id = $2` (first row). -/
def findStake (st : EarnState) (uid sid : ℕ) : Option Stake :=
  findStakeIn sid uid st.stakes

/-- Body of `POST /earn/redeem` once the stake row has been fetched. -/
def redeemWith (st : EarnState) (uid sid : ℕ) (now : ℤ) :
    Option Stake → EarnResult × EarnState
  | none => (.err 404 "Stake not found.", st)
  | some stake =>
    if stake.status ≠ "ACTIVE" then (.err 400 "Stake already redeemed.", st)
    else if now < stake.end_date then (.err 400 "Not ready to redeem yet.", st)
    else
      -- profit = principal * (rate / 100) * days; payout = principal + profit
      let profit := stake.amount * (stake.daily_rate / 100) * (stake.duration_days : ℚ)
      let totalPayout := stake.amount + profit
      -- INSERT ... ON CONFLICT DO UPDATE SET balance = balance + payout
      let newBalances :=
        ((uid, stake.coin), getBalance st uid stake.coin + totalPayout) :: st.balances
      -- UPDATE stakes SET status = REDEEMED WHERE id = stakeId
      let newStakes :=
        st.stakes.map (fun k => if k.id = sid then { k with status := "REDEEMED" } else k)
      (.ok "Redeemed", ⟨newStakes, newBalances⟩)

/-- Endpoint `POST /earn/redeem` (lines 106–171 of `routes/earn.js`). -/
def redeem (st : EarnState) (uid sid : ℕ) (now : ℤ) : EarnResult × EarnState :=
  redeemWith st uid sid now (findStake st uid sid)

/-- The request body of `POST /earn/stake` after `parseFloat(amount)`:
`amount = none` models a `NaN` parse; `duration_days = none` a missing field
(`some 0` is also falsy in the JS check `!duration_days`). -/
structure StakeRequest where
  coin : String
  amount : Option ℚ
  duration_days : Option ℕ
  daily_rate : ℚ
  deriving DecidableEq, Repr

/-- The guard `!coin || isNaN(stakeAmount) || stakeAmount <= 0 || !duration_days`. -/
def stakeInvalid (req : StakeRequest) : Bool :=
  req.coin == "" ||
  (match req.amount with
   | none => true
   | some a => decide (a ≤ 0)) ||
  (match req.duration_days with
   | none => true
   | some n => n == 0)

/-- Endpoint `POST /earn/stake` (lines 50–100 of `routes/earn.js`). `newId` is the id
the database assigns to the inserted stake row; `end_date = now + duration`. -/
def stakeHandler (st : EarnState) (uid : ℕ) (req : StakeRequest) (now : ℤ)
    (newId : ℕ) : EarnResult × EarnState :=
  if stakeInvalid req then (.err 400 "Invalid staking details.", st)
  else
    match req.amount, req.duration_days with
    | some amt, some dur =>
      if getBalance st uid req.coin < amt then
        (.err 400 "Insufficient balance.", st)
      else
        -- UPDATE user_balances SET balance = balance - amt (row exists here)
        let newBalances :=
          match lookupAssoc st.balances (uid, req.coin) with
          | some b => ((uid, req.coin), b - amt) :: st.balances
          | none => st.balances
        let newStake : Stake :=
          ⟨newId, uid, req.coin, amt, req.daily_rate, dur, now + (dur : ℤ), "ACTIVE"⟩
        (.ok "Staked successfully", ⟨newStake :: st.stakes, newBalances⟩)
    | _, _ => (.err 400 "Invalid staking details.", st)

/-! ## Concrete fixtures used to evaluate the theorems on explicit inputs -/

def cacheW1 : SymbolCache := [("bitcoin", ⟨0, some 5, none, none, none⟩)]

def envW1 : Env := ⟨none, .error "down", .error "down", .error "down", 20000⟩

def cacheW2 : SymbolCache := [("bitcoin", ⟨0, some 5, none, none, none⟩)]

def envW2 : Env := ⟨none, .error "down", .error "down", .error "down", 5000⟩

def envW3 : Env :=
  ⟨none, .error "down", .error "down", .ok [⟨some 7, some 8, some 6, some 100⟩], 20000⟩

def envW4 : Env := ⟨none, .error "down", .error "down", .error "down", 20000⟩

def envW7 : Env := ⟨some "k", .ok ⟨some 3⟩, .error "ts down", .error "down", 20000⟩

def cacheW8 : SymbolCache := [("xau", ⟨0, some 9, none, none, none⟩)]

def envW8 : Env := ⟨none, .error "down", .error "down", .error "down", 20000⟩

def stW9 : EarnState :=
  ⟨[⟨1, 10, "USDT", 100, 2, 30, 50, "ACTIVE"⟩], [((10, "USDT"), 5)]⟩

def stW10 : EarnState := ⟨[], [((10, "USDT"), 50)]⟩

/-! ## Helper lemmas -/

theorem char_toLower_eq_of_not_upper (d : Char)
    (hd : ¬(d.toNat ≥ 65 ∧ d.toNat ≤ 90)) : d.toLower = d := by
  show (if d.toNat ≥ 65 ∧ d.toNat ≤ 90 then Char.ofNat (d.toNat + 32) else d) = d
  rw [if_neg hd]

theorem char_toLower_idem (c : Char) : c.toLower.toLower = c.toLower := by
  by_cases h : c.toNat ≥ 65 ∧ c.toNat ≤ 90
  · have h1 : c.toLower = Char.ofNat (c.toNat + 32) := by
      show (if c.toNat ≥ 65 ∧ c.toNat ≤ 90 then Char.ofNat (c.toNat + 32) else c) = _
      rw [if_pos h]
    have hv : (c.toNat + 32).isValidChar := Or.inl (by omega)
    have ht : (Char.ofNat (c.toNat + 32)).toNat = c.toNat + 32 := by
      rw [Char.ofNat, dif_pos hv]
      rfl
    rw [h1, char_toLower_eq_of_not_upper]
    rw [ht]
    omega
  · rw [char_toLower_eq_of_not_upper c h]
    exact char_toLower_eq_of_not_upper c h

theorem map_toLower_idem (l : List Char) :
    (l.map Char.toLower).map Char.toLower = l.map Char.toLower := by
  induction l with
  | nil => rfl
  | cons c cs ih => simp [ih, char_toLower_idem]

theorem normalizeSymbol_idem (x : String) :
    normalizeSymbol (normalizeSymbol x) = normalizeSymbol x := by
  unfold normalizeSymbol
  exact congrArg String.mk (map_toLower_idem x.data)

theorem failsRes_ok_none (pd : PriceData) (hp : pd.price = none) :
    failsRes (.ok pd) = true := by
  show (match pd.price with
        | none => true
        | some q => decide (q ≤ 0)) = true
  rw [hp]

theorem failsRes_ok_some (pd : PriceData) (q : ℚ) (hp : pd.price = some q) :
    failsRes (.ok pd) = decide (q ≤ 0) := by
  show (match pd.price with
        | none => true
        | some q => decide (q ≤ 0)) = decide (q ≤ 0)
  rw [hp]

/-- When the resolution outcome fails validation, the request is answered by
the stale-or-503 fallback and the cache is not written. -/
theorem validateAndCache_of_fails (cache : SymbolCache) (s : String) (now : ℕ)
    (res : Except String PriceData) (h : failsRes res = true) :
    ∃ msg, validateAndCache cache s now res = (staleFallback cache s now msg, cache) := by
  cases res with
  | error e => exact ⟨e, rfl⟩
  | ok pd =>
    cases hp : pd.price with
    | none =>
      refine ⟨"Invalid or zero price data", ?_⟩
      simp [validateAndCache, hp]
    | some q =>
      have hq : q ≤ 0 := by
        rw [failsRes_ok_some pd q hp] at h
        exact of_decide_eq_true h
      refine ⟨"Invalid or zero price data", ?_⟩
      simp [validateAndCache, hp, not_lt.mpr hq]

theorem resolveAndRespond_of_fails (cache : SymbolCache) (env : Env) (s : String)
    (now : ℕ) (hfail : resolutionFails env s = true) :
    ∃ msg, resolveAndRespond cache env s now =
      (staleFallback cache s now msg, cache, (attemptResolve env s).2) := by
  obtain ⟨msg, hv⟩ := validateAndCache_of_fails cache s now (attemptResolve env s).1 hfail
  refine ⟨msg, ?_⟩
  unfold resolveAndRespond
  rw [hv]

/-- Either the fresh-cache branch answers (entry younger than the refresh
window) or the request proceeds to live resolution. -/
theorem handle_cases (cache : SymbolCache) (env : Env) (raw : String) :
    (∃ r, lookupAssoc cache (normalizeSymbol raw) = some r ∧
       env.now - r.t < LIST_REFRESH_MS ∧
       handleGetSymbol cache env raw = (freshResponse (normalizeSymbol raw) r, cache, false)) ∨
    handleGetSymbol cache env raw = resolveAndRespond cache env (normalizeSymbol raw) env.now := by
  rcases hc : lookupAssoc cache (normalizeSymbol raw) with _ | r
  · right
    unfold handleGetSymbol
    rw [hc]
  · by_cases hf : env.now - r.t < LIST_REFRESH_MS
    · left
      refine ⟨r, rfl, hf, ?_⟩
      unfold handleGetSymbol
      rw [hc]
      simp [hf]
    · right
      unfold handleGetSymbol
      rw [hc]
      simp [hf]

/-- The fallback of the `catch` block: stale entry within tolerance, or 503. -/
theorem staleFallback_cases (cache : SymbolCache) (s : String) (now : ℕ) (msg : String) :
    (∃ r, lookupAssoc cache s = some r ∧ now - r.t ≤ SYMBOL_STALE_OK_MS ∧
       staleFallback cache s now msg = staleResponse s r) ∨
    staleFallback cache s now msg = unavailableResponse s msg := by
  rcases hc : lookupAssoc cache s with _ | r
  · right
    unfold staleFallback
    rw [hc]
  · by_cases h : now - r.t ≤ SYMBOL_STALE_OK_MS
    · left
      refine ⟨r, rfl, h, ?_⟩
      unfold staleFallback
      rw [hc]
      simp [h]
    · right
      unfold staleFallback
      rw [hc]
      simp [h]

/-- Execution of the live path: either validation fails and the fallback
answers with the cache unchanged, or a validated positive price is written. -/
theorem resolveAndRespond_cases (cache : SymbolCache) (env : Env) (s : String) (now : ℕ) :
    (∃ msg, resolveAndRespond cache env s now =
       (staleFallback cache s now msg, cache, (attemptResolve env s).2)) ∨
    (∃ pd q, (attemptResolve env s).1 = .ok pd ∧ pd.price = some q ∧ 0 < q ∧
       resolveAndRespond cache env s now =
         (liveResponse s pd,
          (s, ⟨now, pd.price, pd.high_24h, pd.low_24h, pd.volume_24h⟩) :: cache,
          (attemptResolve env s).2)) := by
  by_cases hfail : failsRes (attemptResolve env s).1 = true
  · left
    exact resolveAndRespond_of_fails cache env s now hfail
  · right
    rcases ha : (attemptResolve env s).1 with e | pd
    · rw [ha] at hfail
      exact absurd rfl hfail
    · rw [ha] at hfail
      have hfail2 : ¬failsRes (Except.ok pd) = true := hfail
      rcases hp : pd.price with _ | q
      · exact absurd (failsRes_ok_none pd hp) hfail2
      · have hq : 0 < q := by
          refine lt_of_not_le fun hle => hfail2 ?_
          rw [failsRes_ok_some pd q hp]
          exact decide_eq_true hle
        refine ⟨pd, q, rfl, hp, hq, ?_⟩
        unfold resolveAndRespond
        rw [ha]
        simp [validateAndCache, hp, hq]

/-- A found stake row matches the `WHERE id = $1 AND user_id = $2` clause. -/
theorem findStakeIn_some (sid uid : ℕ) (l : List Stake) (stake : Stake)
    (h : findStakeIn sid uid l = some stake) :
    stake.id = sid ∧ stake.user_id = uid := by
  induction l with
  | nil => exact Option.noConfusion h
  | cons a l ih =>
    unfold findStakeIn at h
    by_cases hpa : a.id = sid ∧ a.user_id = uid
    · rw [if_pos hpa] at h
      injection h with h2
      subst h2
      exact hpa
    · rw [if_neg hpa] at h
      exact ih h

/-- Marking the stakes with a given id `REDEEMED` commutes with looking up
the first stake matching `id = sid AND user_id = uid`. -/
theorem findStakeIn_map_status (sid uid : ℕ) (l : List Stake) :
    findStakeIn sid uid
        (l.map (fun k => if k.id = sid then { k with status := "REDEEMED" } else k)) =
      (findStakeIn sid uid l).map
        (fun k => if k.id = sid then { k with status := "REDEEMED" } else k) := by
  induction l with
  | nil => rfl
  | cons a l ih =>
    by_cases h1 : a.id = sid
    · by_cases h2 : a.user_id = uid
      · simp [findStakeIn, h1, h2]
      · simp [findStakeIn, h1, h2, ih]
    · simp [findStakeIn, h1, ih]

/-- Looking up the balance row that was just prepended returns its value. -/
theorem getBalance_cons_self (stakes : List Stake)
    (bal : List ((ℕ × String) × ℚ)) (uid : ℕ) (coin : String) (v : ℚ) :
    getBalance ⟨stakes, ((uid, coin), v) :: bal⟩ uid coin = v := by
  unfold getBalance
  unfold lookupAssoc
  rw [if_pos rfl]

/-- Definitional unfolding of `redeemWith` on a fetched stake row. -/
theorem redeemWith_some (st : EarnState) (uid sid : ℕ) (now : ℤ) (stake : Stake) :
    redeemWith st uid sid now (some stake) =
      if stake.status ≠ "ACTIVE" then (.err 400 "Stake already redeemed.", st)
      else if now < stake.end_date then (.err 400 "Not ready to redeem yet.", st)
      else
        (.ok "Redeemed",
         ⟨st.stakes.map (fun k => if k.id = sid then { k with status := "REDEEMED" } else k),
          ((uid, stake.coin),
            getBalance st uid stake.coin +
              (stake.amount + stake.amount * (stake.daily_rate / 100) *
                (stake.duration_days : ℚ))) :: st.balances⟩) := rfl

/-! ## Claim theorems -/

/-- C5 counterexample — the claim asserts that the route's symbol
normalization splits pair notations on `/` or `-` and strips a trailing
quote-currency suffix, so that `normalize("TON/USDT") = normalize("ton-usdt")
= "TON"` and `normalize("USDT") = "USDT"`. The route's only normalization is
`toLowerCase()`, which satisfies none of these equations. -/
theorem normalize_split_claim_false :
    ¬(normalizeSymbol "TON/USDT" = "TON" ∧ normalizeSymbol "ton-usdt" = "TON" ∧
      normalizeSymbol "USDT" = "USDT") := by
  decide

/-- C5 amended — the symbol normalization applied to an incoming
identifier is lowercasing only (`req.params.symbol.toLowerCase()`): it
performs no splitting on `/` or `-` and no quote-currency suffix stripping,
so `normalize("TON/USDT") = "ton/usdt"`, `normalize("ton-usdt") =
"ton-usdt"`, and `normalize("USDT") = "usdt"` (in particular a nonempty
identifier is never reduced to the empty string). -/
theorem normalize_lowercases_only :
    normalizeSymbol "TON/USDT" = "ton/usdt" ∧
    normalizeSymbol "ton-usdt" = "ton-usdt" ∧
    normalizeSymbol "USDT" = "usdt" ∧ normalizeSymbol "USDT" ≠ "" := by
  decide

/-- C6 — the symbol normalization is idempotent: for every input string
`x`, `normalize(normalize(x)) = normalize(x)`. -/
theorem normalize_idempotent (x : String) :
    normalizeSymbol (normalizeSymbol x) = normalizeSymbol x :=
  normalizeSymbol_idem x

/-- C1 — if a per-symbol cache entry exists for the lowercased symbol,
its age is at most the staleness tolerance (5 minutes), a live resolution is
attempted (the entry was not inside the 10 s refresh window) and it fails for
any reason, then the response is HTTP 200 carrying the cached record's fields
with `stale: true`, not an error response. -/
theorem stale_cache_served_on_failure
    (cache : SymbolCache) (env : Env) (raw : String) (r : CacheRecord)
    (hc : lookupAssoc cache (normalizeSymbol raw) = some r)
    (hattempted : LIST_REFRESH_MS ≤ env.now - r.t)
    (hage : env.now - r.t ≤ SYMBOL_STALE_OK_MS)
    (hfail : resolutionFails env (normalizeSymbol raw) = true) :
    (handleGetSymbol cache env raw).1.status = 200 ∧
    (handleGetSymbol cache env raw).1.stale = true ∧
    (handleGetSymbol cache env raw).1.error = none ∧
    (handleGetSymbol cache env raw).1.price = r.price ∧
    (handleGetSymbol cache env raw).1.high_24h = r.high_24h ∧
    (handleGetSymbol cache env raw).1.low_24h = r.low_24h ∧
    (handleGetSymbol cache env raw).1.volume_24h = r.volume_24h := by
  have hmain : (handleGetSymbol cache env raw).1 = staleResponse (normalizeSymbol raw) r := by
    rcases handle_cases cache env raw with ⟨r2, hc2, hf2, _⟩ | heq
    · rw [hc] at hc2
      cases hc2
      exact absurd hattempted (not_le.mpr hf2)
    · obtain ⟨msg, h2⟩ := resolveAndRespond_of_fails cache env (normalizeSymbol raw) env.now hfail
      have hresp : (handleGetSymbol cache env raw).1 =
          staleFallback cache (normalizeSymbol raw) env.now msg := by
        rw [heq, h2]
      rw [hresp]
      unfold staleFallback
      rw [hc]
      simp [hage]
  rw [hmain]
  exact ⟨rfl, rfl, rfl, rfl, rfl, rfl, rfl⟩

/-- C2 — if a per-symbol cache entry exists whose age is strictly less
than the refresh window (10 s), the response is the cached record annotated
`cached: true`, the cache is unchanged, and no provider network call is made. -/
theorem fresh_cache_hit
    (cache : SymbolCache) (env : Env) (raw : String) (r : CacheRecord)
    (hc : lookupAssoc cache (normalizeSymbol raw) = some r)
    (hfresh : env.now - r.t < LIST_REFRESH_MS) :
    handleGetSymbol cache env raw = (freshResponse (normalizeSymbol raw) r, cache, false) ∧
    (handleGetSymbol cache env raw).1.status = 200 ∧
    (handleGetSymbol cache env raw).1.cached = true ∧
    (handleGetSymbol cache env raw).1.price = r.price ∧
    (handleGetSymbol cache env raw).2.2 = false := by
  have hmain : handleGetSymbol cache env raw =
      (freshResponse (normalizeSymbol raw) r, cache, false) := by
    unfold handleGetSymbol
    rw [hc]
    simp [hfresh]
  rw [hmain]
  exact ⟨rfl, rfl, rfl, rfl, rfl⟩

/-- C3 — every record written to the per-symbol cache has a finite price
strictly greater than zero (an entry of the new cache is either an entry that
was already present or was just validated), and every authoritative (200,
non-stale, non-cached) response carries a finite positive price. -/
theorem cache_write_price_positive (cache : SymbolCache) (env : Env) (raw : String) :
    (∀ s r, lookupAssoc (handleGetSymbol cache env raw).2.1 s = some r →
        lookupAssoc cache s = some r ∨ ∃ q, r.price = some q ∧ 0 < q) ∧
    ((handleGetSymbol cache env raw).1.status = 200 →
      (handleGetSymbol cache env raw).1.stale = false →
      (handleGetSymbol cache env raw).1.cached = false →
      ∃ q, (handleGetSymbol cache env raw).1.price = some q ∧ 0 < q) := by
  rcases handle_cases cache env raw with ⟨r, hc, hf, heq⟩ | heq
  · rw [heq]
    constructor
    · intro s' r' h
      left
      exact h
    · intro _ _ hcached
      simp [freshResponse] at hcached
  · rw [heq]
    rcases resolveAndRespond_cases cache env (normalizeSymbol raw) env.now with
      ⟨msg, h2⟩ | ⟨pd, q, ha, hp, hq, h2⟩
    · rw [h2]
      constructor
      · intro s' r' h
        left
        exact h
      · intro h200 hstale _
        rcases staleFallback_cases cache (normalizeSymbol raw) env.now msg with
          ⟨r, hc2, hage, h3⟩ | h3
        · rw [h3] at hstale
          simp [staleResponse] at hstale
        · rw [h3] at h200
          simp [unavailableResponse] at h200
    · rw [h2]
      constructor
      · intro s' r' h
        by_cases hs : normalizeSymbol raw = s'
        · right
          unfold lookupAssoc at h
          rw [if_pos hs] at h
          cases h
          exact ⟨q, hp, hq⟩
        · left
          unfold lookupAssoc at h
          rw [if_neg hs] at h
          exact h
      · intro _ _ _
        refine ⟨q, ?_, hq⟩
        show (liveResponse (normalizeSymbol raw) pd).price = some q
        simp [liveResponse, hp]

/-- C4 — when the live resolution fails and no cache entry within the
staleness tolerance exists (covering the unsupported-symbol and empty-cache
cases), the response is HTTP 503 with error code `LIVE_DATA_UNAVAILABLE` and
the requested (lowercased) symbol, and it fabricates no price. -/
theorem total_failure_503 (cache : SymbolCache) (env : Env) (raw : String)
    (hfail : resolutionFails env (normalizeSymbol raw) = true)
    (hnostale : ∀ r, lookupAssoc cache (normalizeSymbol raw) = some r →
        SYMBOL_STALE_OK_MS < env.now - r.t) :
    (handleGetSymbol cache env raw).1.status = 503 ∧
    (handleGetSymbol cache env raw).1.error = some "LIVE_DATA_UNAVAILABLE" ∧
    (handleGetSymbol cache env raw).1.symbol = normalizeSymbol raw ∧
    (handleGetSymbol cache env raw).1.price = none := by
  rcases handle_cases cache env raw with ⟨r, hc, hf, _⟩ | heq
  · have h1 := hnostale r hc
    unfold LIST_REFRESH_MS at hf
    unfold SYMBOL_STALE_OK_MS at h1
    omega
  · obtain ⟨msg, h2⟩ :=
      resolveAndRespond_of_fails cache env (normalizeSymbol raw) env.now hfail
    have hresp : (handleGetSymbol cache env raw).1 =
        staleFallback cache (normalizeSymbol raw) env.now msg := by
      rw [heq, h2]
    rcases staleFallback_cases cache (normalizeSymbol raw) env.now msg with
      ⟨r, hc2, hage, h3⟩ | h3
    · exact absurd hage (not_le.mpr (hnostale r hc2))
    · rw [hresp, h3]
      exact ⟨rfl, rfl, rfl, rfl⟩

/-- C7 — for a forex/commodity symbol (API key configured) whose primary
price call returns a valid positive finite price `q`, if the secondary
time-series call fails or returns no values, the resolution still succeeds:
the response is 200 with price `q` and `high_24h`/`low_24h`/`volume_24h`
absent (null), with no error raised (assuming a live resolution is attempted,
i.e. no sub-10 s cache hit answers first). -/
theorem forex_ts_best_effort
    (cache : SymbolCache) (env : Env) (raw : String) (q : ℚ)
    (hfx : isForexOrCommodity (normalizeSymbol raw) = true)
    (hkey : env.twelveApiKey ≠ none)
    (hprice : env.twelvePrice = .ok ⟨some q⟩)
    (hq : 0 < q)
    (hts : env.twelveTs = .ok [] ∨ ∃ e, env.twelveTs = .error e)
    (hnofresh : ∀ r, lookupAssoc cache (normalizeSymbol raw) = some r →
        LIST_REFRESH_MS ≤ env.now - r.t) :
    (handleGetSymbol cache env raw).1 =
      liveResponse (normalizeSymbol raw) ⟨some q, none, none, none⟩ ∧
    (handleGetSymbol cache env raw).1.status = 200 ∧
    (handleGetSymbol cache env raw).1.error = none ∧
    (handleGetSymbol cache env raw).1.price = some q ∧
    (handleGetSymbol cache env raw).1.high_24h = none ∧
    (handleGetSymbol cache env raw).1.low_24h = none ∧
    (handleGetSymbol cache env raw).1.volume_24h = none := by
  obtain ⟨k, hk⟩ := Option.ne_none_iff_exists'.mp hkey
  have hmap : (lookupAssoc TWELVE_SYMBOL (normalizeSymbol raw)).isSome = true := by
    have h := hfx
    unfold isForexOrCommodity at h
    rw [normalizeSymbol_idem raw] at h
    exact h
  obtain ⟨ts, hts2⟩ := Option.isSome_iff_exists.mp hmap
  have ha : attemptResolve env (normalizeSymbol raw) =
      (.ok ⟨some q, none, none, none⟩, true) := by
    rcases hts with htsE | ⟨e, htsE⟩ <;>
      · unfold attemptResolve
        simp [hfx, hk, hts2, hprice, htsE, not_le.mpr hq]
  have heq : handleGetSymbol cache env raw =
      resolveAndRespond cache env (normalizeSymbol raw) env.now := by
    rcases handle_cases cache env raw with ⟨r, hc, hf, _⟩ | heq
    · exact absurd (hnofresh r hc) (not_le.mpr hf)
    · exact heq
  have hmain : (handleGetSymbol cache env raw).1 =
      liveResponse (normalizeSymbol raw) ⟨some q, none, none, none⟩ := by
    rw [heq]
    unfold resolveAndRespond
    rw [ha]
    simp [validateAndCache, hq]
  rw [hmain]
  exact ⟨rfl, rfl, rfl, rfl, rfl, rfl, rfl⟩

/-- C8 — a forex/commodity request made while the Twelve Data API key is
not configured performs no network call and is treated as an adapter failure
feeding the degradation path: the stale cache answers (200, `stale: true`)
when an entry within tolerance exists, otherwise the 503
`LIVE_DATA_UNAVAILABLE` response — never an unhandled fault (assuming a live
resolution is attempted, i.e. no sub-10 s cache hit answers first). -/
theorem forex_missing_key_degrades
    (cache : SymbolCache) (env : Env) (raw : String)
    (hfx : isForexOrCommodity (normalizeSymbol raw) = true)
    (hkey : env.twelveApiKey = none)
    (hnofresh : ∀ r, lookupAssoc cache (normalizeSymbol raw) = some r →
        LIST_REFRESH_MS ≤ env.now - r.t) :
    (handleGetSymbol cache env raw).2.2 = false ∧
    (∀ r, lookupAssoc cache (normalizeSymbol raw) = some r →
        env.now - r.t ≤ SYMBOL_STALE_OK_MS →
        (handleGetSymbol cache env raw).1 = staleResponse (normalizeSymbol raw) r ∧
        (handleGetSymbol cache env raw).1.status = 200 ∧
        (handleGetSymbol cache env raw).1.stale = true) ∧
    ((∀ r, lookupAssoc cache (normalizeSymbol raw) = some r →
        SYMBOL_STALE_OK_MS < env.now - r.t) →
        (handleGetSymbol cache env raw).1.status = 503 ∧
        (handleGetSymbol cache env raw).1.error = some "LIVE_DATA_UNAVAILABLE") := by
  have ha : attemptResolve env (normalizeSymbol raw) =
      (.error "Twelve Data API Key not configured", false) := by
    unfold attemptResolve
    simp [hfx, hkey]
  have heq : handleGetSymbol cache env raw =
      resolveAndRespond cache env (normalizeSymbol raw) env.now := by
    rcases handle_cases cache env raw with ⟨r, hc, hf, _⟩ | heq
    · exact absurd (hnofresh r hc) (not_le.mpr hf)
    · exact heq
  have hrr : resolveAndRespond cache env (normalizeSymbol raw) env.now =
      (staleFallback cache (normalizeSymbol raw) env.now
        "Twelve Data API Key not configured", cache, false) := by
    unfold resolveAndRespond
    rw [ha]
    rfl
  refine ⟨?_, ?_, ?_⟩
  · rw [heq, hrr]
  · intro r hc hage
    have hresp : (handleGetSymbol cache env raw).1 =
        staleFallback cache (normalizeSymbol raw) env.now
          "Twelve Data API Key not configured" := by
      rw [heq, hrr]
    have hsf : staleFallback cache (normalizeSymbol raw) env.now
        "Twelve Data API Key not configured" = staleResponse (normalizeSymbol raw) r := by
      unfold staleFallback
      rw [hc]
      simp [hage]
    rw [hresp, hsf]
    exact ⟨rfl, rfl, rfl⟩
  · intro hall
    have hresp : (handleGetSymbol cache env raw).1 =
        staleFallback cache (normalizeSymbol raw) env.now
          "Twelve Data API Key not configured" := by
      rw [heq, hrr]
    rcases staleFallback_cases cache (normalizeSymbol raw) env.now
        "Twelve Data API Key not configured" with ⟨r, hc2, hage, h3⟩ | h3
    · exact absurd hage (not_le.mpr (hall r hc2))
    · rw [hresp, h3]
      exact ⟨rfl, rfl⟩

/-- C9 — a successful `POST /earn/redeem` credits the user's balance with
exactly `amount * (1 + daily_rate/100 * duration_days)` (principal plus
simple daily interest) and moves the stake from `ACTIVE` to `REDEEMED`; a
redeem of a non-`ACTIVE` stake, or of a stake whose `end_date` has not yet
passed, returns an error and leaves the state (stakes and balances)
unchanged. -/
theorem redeem_payout_and_guards (st : EarnState) (uid sid : ℕ) (now : ℤ)
    (stake : Stake) (hfind : findStake st uid sid = some stake) :
    (stake.status = "ACTIVE" → stake.end_date ≤ now →
       (redeem st uid sid now).1 = .ok "Redeemed" ∧
       getBalance (redeem st uid sid now).2 uid stake.coin =
         getBalance st uid stake.coin +
           stake.amount * (1 + stake.daily_rate / 100 * (stake.duration_days : ℚ)) ∧
       (findStake (redeem st uid sid now).2 uid sid).map Stake.status =
         some "REDEEMED") ∧
    (stake.status ≠ "ACTIVE" →
       (redeem st uid sid now).1 = .err 400 "Stake already redeemed." ∧
       (redeem st uid sid now).2 = st) ∧
    (now < stake.end_date →
       (∃ e, (redeem st uid sid now).1 = .err 400 e) ∧
       (redeem st uid sid now).2 = st) := by
  have hid : stake.id = sid ∧ stake.user_id = uid :=
    findStakeIn_some sid uid st.stakes stake hfind
  refine ⟨?_, ?_, ?_⟩
  · intro hact hend
    have hstate : redeem st uid sid now =
        (.ok "Redeemed",
         ⟨st.stakes.map (fun k => if k.id = sid then { k with status := "REDEEMED" } else k),
          ((uid, stake.coin),
            getBalance st uid stake.coin +
              (stake.amount + stake.amount * (stake.daily_rate / 100) *
                (stake.duration_days : ℚ))) :: st.balances⟩) := by
      unfold redeem
      rw [hfind, redeemWith_some]
      rw [if_neg (by simp [hact])]
      rw [if_neg (not_lt.mpr hend)]
    refine ⟨by rw [hstate], ?_, ?_⟩
    · rw [hstate]
      rw [getBalance_cons_self]
      ring
    · rw [hstate]
      have hgoal : findStake
          (⟨st.stakes.map (fun k => if k.id = sid then { k with status := "REDEEMED" } else k),
            ((uid, stake.coin),
              getBalance st uid stake.coin +
                (stake.amount + stake.amount * (stake.daily_rate / 100) *
                  (stake.duration_days : ℚ))) :: st.balances⟩ : EarnState) uid sid =
          some { stake with status := "REDEEMED" } := by
        unfold findStake
        rw [findStakeIn_map_status]
        have hfind2 : findStakeIn sid uid st.stakes = some stake := hfind
        rw [hfind2]
        simp [hid.1]
      rw [hgoal]
      rfl
  · intro hne
    have hstate : redeem st uid sid now = (.err 400 "Stake already redeemed.", st) := by
      unfold redeem
      rw [hfind, redeemWith_some]
      rw [if_pos hne]
    exact ⟨by rw [hstate], by rw [hstate]⟩
  · intro hlt
    by_cases hne : stake.status ≠ "ACTIVE"
    · have hstate : redeem st uid sid now = (.err 400 "Stake already redeemed.", st) := by
        unfold redeem
        rw [hfind, redeemWith_some]
        rw [if_pos hne]
      exact ⟨⟨"Stake already redeemed.", by rw [hstate]⟩, by rw [hstate]⟩
    · have hstate : redeem st uid sid now = (.err 400 "Not ready to redeem yet.", st) := by
        unfold redeem
        rw [hfind, redeemWith_some]
        rw [if_neg hne]
        rw [if_pos hlt]
      exact ⟨⟨"Not ready to redeem yet.", by rw [hstate]⟩, by rw [hstate]⟩

/-- C10 — `POST /earn/stake` never deducts from a balance unless the
stake record is also created: every error path (invalid request — missing
coin, non-numeric or non-positive amount, missing duration — or insufficient
balance) leaves the state unchanged, and on the success path the balance is
reduced by exactly the staked amount while the `ACTIVE` stake record is
prepended. -/
theorem stake_balance_safety (st : EarnState) (uid : ℕ) (req : StakeRequest)
    (now : ℤ) (newId : ℕ) :
    (∀ n e, (stakeHandler st uid req now newId).1 = .err n e →
        (stakeHandler st uid req now newId).2 = st) ∧
    (stakeInvalid req = true →
        stakeHandler st uid req now newId = (.err 400 "Invalid staking details.", st)) ∧
    (∀ m, (stakeHandler st uid req now newId).1 = .ok m →
        ∃ amt dur, req.amount = some amt ∧ req.duration_days = some dur ∧
          0 < amt ∧ amt ≤ getBalance st uid req.coin ∧
          getBalance (stakeHandler st uid req now newId).2 uid req.coin =
            getBalance st uid req.coin - amt ∧
          (stakeHandler st uid req now newId).2.stakes =
            ⟨newId, uid, req.coin, amt, req.daily_rate, dur, now + (dur : ℤ),
              "ACTIVE"⟩ :: st.stakes) := by
  by_cases hi : stakeInvalid req = true
  · have hstate : stakeHandler st uid req now newId =
        (.err 400 "Invalid staking details.", st) := by
      unfold stakeHandler
      simp [hi]
    refine ⟨?_, ?_, ?_⟩
    · intro n e _
      rw [hstate]
    · intro _
      exact hstate
    · intro m h
      rw [hstate] at h
      simp at h
  · have hi' : stakeInvalid req = false := by
      cases hsi : stakeInvalid req
      · rfl
      · exact absurd hsi hi
    rcases hA : req.amount with _ | a
    · exfalso
      apply hi
      unfold stakeInvalid
      rw [hA]
      simp
    rcases hD : req.duration_days with _ | d
    · exfalso
      apply hi
      unfold stakeInvalid
      rw [hD]
      simp
    have ha_pos : 0 < a := by
      by_contra hle
      apply hi
      unfold stakeInvalid
      rw [hA]
      simp [not_lt.mp hle]
    by_cases hb : getBalance st uid req.coin < a
    · have hstate : stakeHandler st uid req now newId =
          (.err 400 "Insufficient balance.", st) := by
        unfold stakeHandler
        simp [hi', hA, hD, hb]
      refine ⟨?_, ?_, ?_⟩
      · intro n e _
        rw [hstate]
      · intro h
        exact absurd h hi
      · intro m h
        rw [hstate] at h
        simp at h
    · rcases hLB : lookupAssoc st.balances (uid, req.coin) with _ | b
      · exfalso
        have h0 : getBalance st uid req.coin = 0 := by
          unfold getBalance
          rw [hLB]
        exact absurd (h0 ▸ not_lt.mp hb) (not_le.mpr ha_pos)
      · have hgb : getBalance st uid req.coin = b := by
          unfold getBalance
          rw [hLB]
        have hstate : stakeHandler st uid req now newId =
            (.ok "Staked successfully",
             ⟨(⟨newId, uid, req.coin, a, req.daily_rate, d, now + (d : ℤ),
                 "ACTIVE"⟩ : Stake) :: st.stakes,
              ((uid, req.coin), b - a) :: st.balances⟩) := by
          unfold stakeHandler
          simp [hi', hA, hD, hb, hLB]
        refine ⟨?_, ?_, ?_⟩
        · intro n e h
          rw [hstate] at h
          simp at h
        · intro h
          exact absurd h hi
        · intro m _
          refine ⟨a, d, rfl, rfl, ha_pos, not_lt.mp hb, ?_, ?_⟩
          · rw [hstate, hgb]
            rw [getBalance_cons_self]
          · rw [hstate]

/-! ## Witnesses: the claim theorems applied at explicit concrete inputs -/

/-- C1 at a concrete cached entry aged 20 s with every provider failing. -/
theorem stale_cache_served_on_failure_witness :
    (handleGetSymbol cacheW1 envW1 "bitcoin").1.status = 200 ∧
    (handleGetSymbol cacheW1 envW1 "bitcoin").1.stale = true ∧
    (handleGetSymbol cacheW1 envW1 "bitcoin").1.price = some 5 := by
  have h := stale_cache_served_on_failure cacheW1 envW1 "bitcoin"
    ⟨0, some 5, none, none, none⟩ rfl (by decide) (by decide) rfl
  exact ⟨h.1, h.2.1, h.2.2.2.1⟩

/-- C2 at a concrete cached entry aged 5 s (inside the refresh window). -/
theorem fresh_cache_hit_witness :
    (handleGetSymbol cacheW2 envW2 "BITCOIN").1.status = 200 ∧
    (handleGetSymbol cacheW2 envW2 "BITCOIN").1.cached = true ∧
    (handleGetSymbol cacheW2 envW2 "BITCOIN").2.2 = false := by
  have h := fresh_cache_hit cacheW2 envW2 "BITCOIN"
    ⟨0, some 5, none, none, none⟩ rfl (by decide)
  exact ⟨h.2.1, h.2.2.1, h.2.2.2.2⟩

/-- C3 at a successful CoinGecko resolution written into an empty cache. -/
theorem cache_write_price_positive_witness :
    lookupAssoc ([] : SymbolCache) "bitcoin" =
        some ⟨20000, some 7, some 8, some 6, some 100⟩ ∨
    ∃ q, (⟨20000, some 7, some 8, some 6, some 100⟩ : CacheRecord).price = some q ∧
      0 < q :=
  (cache_write_price_positive [] envW3 "bitcoin").1 "bitcoin"
    ⟨20000, some 7, some 8, some 6, some 100⟩ rfl

/-- C4 at an unsupported symbol with an empty cache. -/
theorem total_failure_503_witness :
    (handleGetSymbol [] envW4 "doge").1.status = 503 ∧
    (handleGetSymbol [] envW4 "doge").1.error = some "LIVE_DATA_UNAVAILABLE" := by
  have h := total_failure_503 [] envW4 "doge" rfl (fun r hr => Option.noConfusion hr)
  exact ⟨h.1, h.2.1⟩

/-- C7 at gold (`XAU`) with a working price call and a failing time series. -/
theorem forex_ts_best_effort_witness :
    (handleGetSymbol [] envW7 "XAU").1.status = 200 ∧
    (handleGetSymbol [] envW7 "XAU").1.price = some 3 ∧
    (handleGetSymbol [] envW7 "XAU").1.high_24h = none := by
  have h := forex_ts_best_effort [] envW7 "XAU" 3 rfl (by decide) rfl (by decide)
    (Or.inr ⟨"ts down", rfl⟩) (fun r hr => Option.noConfusion hr)
  exact ⟨h.2.1, h.2.2.2.1, h.2.2.2.2.1⟩

/-- C8 at gold with no API key and a stale cached entry aged 20 s. -/
theorem forex_missing_key_degrades_witness :
    (handleGetSymbol cacheW8 envW8 "xau").2.2 = false ∧
    (handleGetSymbol cacheW8 envW8 "xau").1.status = 200 ∧
    (handleGetSymbol cacheW8 envW8 "xau").1.stale = true := by
  have h := forex_missing_key_degrades cacheW8 envW8 "xau" rfl rfl
    (by
      intro r hr
      have hr2 : some (⟨0, some 9, none, none, none⟩ : CacheRecord) = some r := hr
      injection hr2 with h2
      rw [← h2]
      decide)
  have h2 := h.2.1 ⟨0, some 9, none, none, none⟩ rfl (by decide)
  exact ⟨h.1, h2.2.1, h2.2.2⟩

/-- C9 at a matured concrete stake: 100 USDT, 2 % daily, 30 days. -/
theorem redeem_payout_and_guards_witness :
    (redeem stW9 10 1 60).1 = .ok "Redeemed" ∧
    getBalance (redeem stW9 10 1 60).2 10 "USDT" = 165 ∧
    (findStake (redeem stW9 10 1 60).2 10 1).map Stake.status = some "REDEEMED" := by
  have h := (redeem_payout_and_guards stW9 10 1 60
    ⟨1, 10, "USDT", 100, 2, 30, 50, "ACTIVE"⟩ rfl).1 rfl (by decide)
  refine ⟨h.1, ?_, h.2.2⟩
  rw [h.2.1]
  norm_num [stW9, getBalance, lookupAssoc]

/-- C10 at an insufficient balance and at an unparseable amount. -/
theorem stake_balance_safety_witness :
    (stakeHandler stW10 10 ⟨"USDT", some 200, some 30, 2⟩ 0 1).2 = stW10 ∧
    stakeHandler stW10 10 ⟨"USDT", none, some 30, 2⟩ 0 1 =
      (.err 400 "Invalid staking details.", stW10) := by
  constructor
  · exact (stake_balance_safety stW10 10 ⟨"USDT", some 200, some 30, 2⟩ 0 1).1 400
      "Insufficient balance." rfl
  · exact (stake_balance_safety stW10 10 ⟨"USDT", none, some 30, 2⟩ 0 1).2.1 rfl

end NovaChain
